import Mathlib

/-!
Verification of the abstract scorer core (`mert/Scorer.h`) of the
CUNI-Khresmoi-Moses repository: a shallow embedding of the `Scorer` base
class, its configuration lookup, the score-data binding, the sentence
preprocessing composition, the regularisation helpers `score_min` and
`score_average`, and the two-phase scoring protocol, together with proofs
of the spec's testable properties about them.

Machine `float` values are modelled as exact rationals (`ℚ`); `size_t`
arithmetic is modelled with `ℕ` where subtraction truncates exactly as the
observable behaviour of the C++ code, and `static_cast<std::size_t>` of an
`int` is modelled as reduction modulo `2 ^ 64`.
-/

/-- Entry of sufficient statistics (`ScoreStats`): an ordered sequence of
numeric fields. `ScoreStats`/`Types.h` are not among the given sources;
modelled from the spec as a flat numeric row. -/
abbrev ScoreStats := List ℚ

/-- The score sequence type `statscores_t` (a vector of floats in
`Types.h`), modelled as a list of rationals. -/
abbrev statscores_t := List ℚ

/-- Candidate selection `candidates_t`: one candidate index per sentence. -/
abbrev candidates_t := List ℕ

/-- A diff: (sentence index, new candidate index). `Types.h` is not among
the given sources; modelled from the spec's §3 description of a diff. -/
abbrev diff_t := ℕ × ℕ

/-- A sequence of diffs applied in order. -/
abbrev diffs_t := List diff_t

/-- Modelled from the spec: the statistics table (`ScoreData`) is an
external collaborator; the core only requires the row count (`size()`). -/
structure ScoreData where
  size : ℕ

/-- The `Scorer` base-class state: its name, the config map (immutable
after construction) and the non-owning pointer to the bound statistics
table (`m_score_data`), modelled as an optional `ScoreData`. -/
structure Scorer where
  m_name : String
  m_config : List (String × String)
  m_score_data : Option ScoreData

/-- `getReferenceSize` from `Scorer.h`: the row count of the bound table,
or `0` when `m_score_data` is null. -/
def getReferenceSize (sc : Scorer) : ℕ :=
  match sc.m_score_data with
  | some d => d.size
  | none => 0

/-- `setScoreData` from `Scorer.h`: stores the given (possibly null) table
pointer in `m_score_data`. -/
def setScoreData (sc : Scorer) (data : Option ScoreData) : Scorer :=
  { sc with m_score_data := data }

/-- `getConfig` from `Scorer.h`: defaulted lookup in the config map. The
method is `const` in the source, so in normal C++ it cannot modify
`m_config`; here it is a pure function of the scorer. -/
def getConfig (sc : Scorer) (key default_value : String) : String :=
  match sc.m_config.lookup key with
  | none => default_value
  | some v => v

/-- Base-class `setReferenceFiles` from `Scorer.h`: the body is
`// do nothing` — the scorer state is returned unchanged. -/
def setReferenceFiles (sc : Scorer) (referenceFiles : List String) : Scorer :=
  sc

/-- Base-class `prepareStats(std::size_t, ...)` from `Scorer.h`: the body
is `// do nothing.` — it raises no error and leaves the entry unchanged. -/
def prepareStats (sc : Scorer) (sindex : ℕ) (text : String)
    (entry : ScoreStats) : Except String ScoreStats :=
  Except.ok entry

/-- C `isspace` on the default locale, as used by `atoi`. -/
def isSpaceChar (c : Char) : Bool :=
  c = ' ' || c = '\t' || c = '\n' || c = '\r' || c = '\x0b' || c = '\x0c'

/-- Value of the leading run of decimal digits, as accumulated by `atoi`. -/
def digitsValue (cs : List Char) : ℤ :=
  (cs.takeWhile Char.isDigit).foldl
    (fun a c => 10 * a + ((c.toNat : ℤ) - ('0'.toNat : ℤ))) 0

/-- C `atoi`: skip leading whitespace, read an optional sign and the
longest run of decimal digits; a string with no digits there yields `0`. -/
def atoi (s : String) : ℤ :=
  match s.data.dropWhile isSpaceChar with
  | '-' :: rest => - digitsValue rest
  | '+' :: rest => digitsValue rest
  | cs => digitsValue cs

/-- `static_cast<std::size_t>` of an `int`: reduction modulo `2 ^ 64`. -/
def sizeTOfInt (n : ℤ) : ℕ :=
  (n % (2 : ℤ) ^ 64).toNat

/-- The string-indexed `prepareStats` overload from `Scorer.h`: it parses
the index with `atoi`, casts to `size_t` and delegates to the virtual
`size_t` overload, which is modelled by the `impl` parameter (virtual
dispatch to the concrete metric's override). -/
def prepareStatsString
    (impl : ℕ → String → ScoreStats → Except String ScoreStats)
    (sindex text : String) (entry : ScoreStats) : Except String ScoreStats :=
  impl (sizeTOfInt (atoi sindex)) text entry

/-- `preprocessSentence` from `Scorer.h`, literally
`return applyFactors(applyFilter(sentence));`. The bodies of
`applyFactors` and `applyFilter` live in `Scorer.cpp`, which is not among
the given sources, so they are passed as the pipeline's two
sentence-transformation functions. -/
def preprocessSentence (applyFactors applyFilter : String → String)
    (sentence : String) : String :=
  applyFactors (applyFilter sentence)

/-- `std::numeric_limits<float>::max()`, the exact rational value
`(2 - 2 ^ -23) * 2 ^ 127` of the largest finite IEEE-754 single. -/
def flt_max : ℚ := 2 ^ 128 - 2 ^ 104

/-- `score_min` from `Scorer.h`: running minimum of `scores[start..end)`
starting from `FLT_MAX`. -/
def score_min (scores : statscores_t) (start en : ℕ) : ℚ :=
  (List.range' start (en - start)).foldl
    (fun m i => if scores.getD i 0 < m then scores.getD i 0 else m) flt_max

/-- `score_average` from `Scorer.h`: returns `0` on an empty range
(the `(end - start) < 1` guard), otherwise the sum over
`scores[start..end)` divided by the range length. -/
def score_average (scores : statscores_t) (start en : ℕ) : ℚ :=
  if en - start < 1 then 0
  else
    ((List.range' start (en - start)).foldl
      (fun total j => total + scores.getD j 0) 0) / ((en - start : ℕ) : ℚ)

/-- Applying one diff to a candidate selection: replace the candidate at
the diff's sentence index. Modelled from the spec §4.3 (the virtual
incremental `score` is pure virtual in `Scorer.h`). -/
def applyDiff (sel : candidates_t) (d : diff_t) : candidates_t :=
  sel.set d.1 d.2

/-- Modelled from the spec (§4.3 Phase B; `score(candidates, diffs,
scores)` is pure virtual in `Scorer.h`, with only a commented-out dummy
body): emit the baseline score of the selection, then apply each diff in
order to the carried-forward selection and emit the updated score. `f` is
the concrete metric's selection-to-scalar scoring function. -/
def incrementalScores (f : candidates_t → ℚ) :
    candidates_t → diffs_t → statscores_t
  | sel, [] => [f sel]
  | sel, d :: rest => f sel :: incrementalScores f (applyDiff sel d) rest

/-- Modelled from the spec: the incremental scoring entry point checks
that score data is bound (`"score data not loaded"`, as in the
commented-out dummy body in `Scorer.h`) and produces the output score
sequence. -/
def scorerScore (sc : Scorer) (f : candidates_t → ℚ)
    (candidates : candidates_t) (diffs : diffs_t) :
    Except String statscores_t :=
  match sc.m_score_data with
  | none => Except.error "score data not loaded"
  | some _ => Except.ok (incrementalScores f candidates diffs)

/-- Split a character list into whitespace-delimited tokens. -/
def splitOnSpace : List Char → List (List Char)
  | [] => [[]]
  | c :: rest =>
    if c = ' ' then [] :: splitOnSpace rest
    else
      match splitOnSpace rest with
      | [] => [[c]]
      | t :: ts => (c :: t) :: ts

/-- Modelled from the spec: `applyFactors` for the factor configuration
`[0]` — split each whitespace-delimited token on the factor delimiter `|`
and keep field 0 (used as a concrete pipeline instance). -/
def applyFactorsEx (s : String) : String :=
  ⟨List.intercalate [' ']
    ((splitOnSpace s.data).map (fun tok => tok.takeWhile (fun c => c ≠ '|')))⟩

/-- Modelled from the spec: an external normalization filter (an arbitrary
configured command); this instance appends a normalization token. -/
def applyFilterEx (s : String) : String :=
  s ++ " c|d"

/-- A concrete scorer on which `setReferenceFiles` was never called. -/
def scorerNoRefs : Scorer :=
  { m_name := "BLEU", m_config := [], m_score_data := none }

/-- A concrete scorer with a parsed config map. -/
def scorerWithConfig : Scorer :=
  { m_name := "PER", m_config := [("case", "true"), ("factors", "0")],
    m_score_data := none }

/-- A concrete metric override for the `size_t` `prepareStats`, recording
the sentence index it was called with. -/
def implEx (sindex : ℕ) (text : String) (entry : ScoreStats) :
    Except String ScoreStats :=
  Except.ok (entry ++ [(sindex : ℚ)])

/- ### Helper lemmas (shared) -/

/-- Every member of `List.range' s n` lies in `[s, s + n)`. -/
theorem mem_range'_bounds :
    ∀ (n s i : ℕ), i ∈ List.range' s n → s ≤ i ∧ i < s + n := by
  intro n
  induction n with
  | zero => intro s i h; simp [List.range'] at h
  | succ k ih =>
    intro s i h
    simp only [List.range'] at h
    rcases List.mem_cons.1 h with h1 | h2
    · omega
    · have := ih (s + 1) i h2
      omega

/-- A fold whose step reads indices only through `f` agrees for functions
that agree on the list's members. -/
theorem foldl_step_agree (step : ℚ → ℚ → ℚ) :
    ∀ (l : List ℕ) (a : ℚ) (f g : ℕ → ℚ),
      (∀ i ∈ l, f i = g i) →
      l.foldl (fun acc i => step acc (f i)) a
        = l.foldl (fun acc i => step acc (g i)) a := by
  intro l
  induction l with
  | nil => intro a f g h; rfl
  | cons x xs ih =>
    intro a f g h
    simp only [List.foldl_cons]
    rw [h x (List.mem_cons_self x xs)]
    exact ih _ f g (fun i hi => h i (List.mem_cons_of_mem x hi))

/-- The running-minimum fold never exceeds its initial value. -/
theorem min_fold_le_init (f : ℕ → ℚ) :
    ∀ (l : List ℕ) (a : ℚ),
      l.foldl (fun m j => if f j < m then f j else m) a ≤ a := by
  intro l
  induction l with
  | nil => intro a; exact le_refl a
  | cons x xs ih =>
    intro a
    simp only [List.foldl_cons]
    refine le_trans (ih _) ?_
    split <;> [exact le_of_lt (by assumption); exact le_refl a]

/-- The running-minimum fold is a lower bound for the value at every list
member. -/
theorem min_fold_le_mem (f : ℕ → ℚ) :
    ∀ (l : List ℕ) (a : ℚ) (i : ℕ), i ∈ l →
      l.foldl (fun m j => if f j < m then f j else m) a ≤ f i := by
  intro l
  induction l with
  | nil => intro a i h; exact absurd h (List.not_mem_nil i)
  | cons y ys ih =>
    intro a i h
    simp only [List.foldl_cons]
    rcases List.mem_cons.1 h with rfl | h2
    · refine le_trans (min_fold_le_init f ys _) ?_
      split <;> [exact le_refl (f i); exact le_of_not_lt (by assumption)]
    · exact ih _ i h2

/-- A sum fold over values that are all at least `m` is at least the
initial value plus `m` times the length. -/
theorem sum_fold_ge (f : ℕ → ℚ) :
    ∀ (l : List ℕ) (a m : ℚ), (∀ i ∈ l, m ≤ f i) →
      a + m * l.length ≤ l.foldl (fun t j => t + f j) a := by
  intro l
  induction l with
  | nil => intro a m _; simp
  | cons x xs ih =>
    intro a m h
    simp only [List.foldl_cons, List.length_cons]
    have hx : m ≤ f x := h x (List.mem_cons_self x xs)
    have hrec := ih (a + f x) m (fun y hy => h y (List.mem_cons_of_mem x hy))
    push_cast
    push_cast at hrec
    linarith

/-- The output of `incrementalScores` has one entry per diff plus the
baseline. -/
theorem incrementalScores_length (f : candidates_t → ℚ) :
    ∀ (diffs : diffs_t) (sel : candidates_t),
      (incrementalScores f sel diffs).length = diffs.length + 1 := by
  intro diffs
  induction diffs with
  | nil => intro sel; rfl
  | cons d rest ih =>
    intro sel
    simp only [incrementalScores, List.length_cons]
    rw [ih (applyDiff sel d)]

/- ### Claim theorems -/

/-- Claim C1 counterexample: `preprocessSentence` does NOT equal
`applyFilter(applyFactors(s))`: with the modelled factor-selection and a
filter that appends a factored token, the two orders differ on "a|b". -/
theorem preprocessSentence_order_cex :
    preprocessSentence applyFactorsEx applyFilterEx "a|b"
      ≠ applyFilterEx (applyFactorsEx "a|b") := by
  decide

/-- Claim C1 (amended): `preprocessSentence` applies the filter first and
factor-selection second: `preprocessSentence(s) = applyFactors(applyFilter(s))`,
exactly the body on line 161 of `Scorer.h`. -/
theorem preprocessSentence_filter_first
    (applyFactors applyFilter : String → String) (sentence : String) :
    preprocessSentence applyFactors applyFilter sentence
      = applyFactors (applyFilter sentence) := rfl

/-- Claim C2: at the failing input (zero references, `start = end = 0`)
`score_average` returns `0` instead of raising an error — the code bug the
spec flags in §9. -/
theorem score_average_empty_returns_zero :
    score_average [] 0 0 = 0 := rfl

/-- Claim C3: when score data is bound, incremental scoring succeeds and
the output sequence has length exactly `diffs.size() + 1`. -/
theorem scorerScore_length (sc : Scorer) (f : candidates_t → ℚ)
    (candidates : candidates_t) (diffs : diffs_t) (d : ScoreData)
    (h : sc.m_score_data = some d) :
    ∃ out, scorerScore sc f candidates diffs = Except.ok out
      ∧ out.length = diffs.length + 1 := by
  refine ⟨incrementalScores f candidates diffs, ?_, ?_⟩
  · unfold scorerScore
    rw [h]
  · exact incrementalScores_length f diffs candidates

/-- Claim C3 witness: a concrete bound scorer with one diff yields two
output scores. -/
theorem scorerScore_length_witness :
    ∃ out, scorerScore (setScoreData scorerNoRefs (some ⟨3⟩))
        (fun _ => 0) [0] [(0, 1)] = Except.ok out
      ∧ out.length = 2 :=
  scorerScore_length (setScoreData scorerNoRefs (some ⟨3⟩))
    (fun _ => 0) [0] [(0, 1)] ⟨3⟩ rfl

/-- Claim C4 counterexample: on a scorer on which `setReferenceFiles` was
never called, the base-class `prepareStats` silently succeeds with
unchanged (empty) statistics instead of raising "references not set". -/
theorem prepareStats_no_refs_silent :
    prepareStats scorerNoRefs 0 "hello world" [] = Except.ok [] := rfl

/-- Claim C4 (amended): the base-class `prepareStats` is a documented
do-nothing stub: it never raises an error, regardless of whether
`setReferenceFiles` was called, and leaves the statistics entry
unchanged; concrete metrics must override it. -/
theorem prepareStats_noop (sc : Scorer) (sindex : ℕ) (text : String)
    (entry : ScoreStats) :
    prepareStats sc sindex text entry = Except.ok entry := rfl

/-- Claim C6: `getReferenceSize` returns the row count of the table bound
via `setScoreData`, and `0` when a null table is bound. -/
theorem getReferenceSize_rows (sc : Scorer) (d : ScoreData) :
    getReferenceSize (setScoreData sc (some d)) = d.size
      ∧ getReferenceSize (setScoreData sc none) = 0 :=
  ⟨rfl, rfl⟩

/-- Claim C7: `getConfig` returns the stored value when the key is present
in the config map and the default when it is absent; being a pure function
of the scorer, it does not modify the config. -/
theorem getConfig_lookup (sc : Scorer) (key default_value v : String) :
    (sc.m_config.lookup key = some v →
      getConfig sc key default_value = v)
      ∧ (sc.m_config.lookup key = none →
      getConfig sc key default_value = default_value) := by
  constructor <;> intro h <;> simp [getConfig, h]

/-- Claim C7 witness: on a concrete config, a present key ("case") returns
its stored value and an absent key ("beam") returns the default. -/
theorem getConfig_lookup_witness :
    getConfig scorerWithConfig "case" "false" = "true"
      ∧ getConfig scorerWithConfig "beam" "10" = "10" :=
  ⟨(getConfig_lookup scorerWithConfig "case" "false" "true").1 (by decide),
   (getConfig_lookup scorerWithConfig "beam" "10" "x").2 (by decide)⟩

/-- Claim C8: on an empty index range (`start ≥ end`) `score_min` returns
`std::numeric_limits<float>::max()` without any error. -/
theorem score_min_empty_range (scores : statscores_t) (start en : ℕ)
    (h : en ≤ start) :
    score_min scores start en = flt_max := by
  unfold score_min
  rw [Nat.sub_eq_zero_of_le h]
  rfl

/-- Claim C8 witness: `score_min` over the empty range `[0, 0)` of a
nonempty score list is `FLT_MAX`. -/
theorem score_min_empty_range_witness :
    (0 : ℕ) ≤ 0 ∧ score_min [5] 0 0 = flt_max :=
  ⟨le_refl 0, score_min_empty_range [5] 0 0 (le_refl 0)⟩

/-- Claim C9: the string-indexed `prepareStats` overload delegates to the
`size_t` overload with sentence index `0` whenever `atoi` cannot parse the
index string (yields `0`), reporting no error. -/
theorem prepareStatsString_atoi_zero
    (impl : ℕ → String → ScoreStats → Except String ScoreStats)
    (sindex text : String) (entry : ScoreStats) (h : atoi sindex = 0) :
    prepareStatsString impl sindex text entry = impl 0 text entry := by
  unfold prepareStatsString sizeTOfInt
  rw [h]
  rfl

/-- Claim C9 witness: the non-numeric index string "foo" parses to `0`
via `atoi` and the overload delegates with sentence index `0`. -/
theorem prepareStatsString_atoi_zero_witness :
    atoi "foo" = 0
      ∧ prepareStatsString implEx "foo" "some text" []
        = implEx 0 "some text" [] :=
  ⟨by decide,
   prepareStatsString_atoi_zero implEx "foo" "some text" [] (by decide)⟩

/-- Claim C5: on a non-empty index range, the minimum regularisation value
is at most the average regularisation value. -/
theorem score_min_le_score_average (scores : statscores_t) (start en : ℕ)
    (h : start < en) :
    score_min scores start en ≤ score_average scores start en := by
  have hn : 0 < en - start := by omega
  unfold score_min score_average
  rw [if_neg (by omega)]
  have hpos : (0 : ℚ) < ((en - start : ℕ) : ℚ) := by exact_mod_cast hn
  rw [le_div_iff₀ hpos]
  have hbound : ∀ i ∈ List.range' start (en - start),
      (List.range' start (en - start)).foldl
        (fun m j => if scores.getD j 0 < m then scores.getD j 0 else m)
        flt_max ≤ scores.getD i 0 :=
    fun i hi => min_fold_le_mem (fun j => scores.getD j 0) _ _ i hi
  have hsum := sum_fold_ge (fun j => scores.getD j 0)
    (List.range' start (en - start)) 0
    ((List.range' start (en - start)).foldl
      (fun m j => if scores.getD j 0 < m then scores.getD j 0 else m)
      flt_max)
    hbound
  have hlen : (((List.range' start (en - start)).length : ℕ) : ℚ)
      = ((en - start : ℕ) : ℚ) := by
    rw [List.length_range']
  rw [hlen] at hsum
  linarith

/-- Claim C5 witness: on `[3, 1, 2]` over `[0, 3)` the minimum `1` is at
most the average `2`. -/
theorem score_min_le_score_average_witness :
    (0 : ℕ) < 3 ∧ score_min [3, 1, 2] 0 3 ≤ score_average [3, 1, 2] 0 3 :=
  ⟨by decide, score_min_le_score_average [3, 1, 2] 0 3 (by decide)⟩

/-- Claim C10: `score_min` and `score_average` read only the indices in
`[start, end)`; two score sequences that agree there yield identical
results from both regularisers. -/
theorem score_min_average_frame (s1 s2 : statscores_t) (start en : ℕ)
    (h : ∀ i, i < en → start ≤ i → s1.getD i 0 = s2.getD i 0) :
    score_min s1 start en = score_min s2 start en
      ∧ score_average s1 start en = score_average s2 start en := by
  have hag : ∀ i ∈ List.range' start (en - start),
      s1.getD i 0 = s2.getD i 0 := by
    intro i hi
    have hb := mem_range'_bounds (en - start) start i hi
    exact h i (by omega) hb.1
  constructor
  · unfold score_min
    exact foldl_step_agree (fun m x => if x < m then x else m)
      (List.range' start (en - start)) flt_max
      (fun i => s1.getD i 0) (fun i => s2.getD i 0) hag
  · unfold score_average
    by_cases hc : en - start < 1
    · rw [if_pos hc, if_pos hc]
    · rw [if_neg hc, if_neg hc,
        show (List.range' start (en - start)).foldl
            (fun total j => total + s1.getD j 0) 0
          = (List.range' start (en - start)).foldl
            (fun total j => total + s2.getD j 0) 0 from
          foldl_step_agree (· + ·) (List.range' start (en - start)) 0
            (fun i => s1.getD i 0) (fun i => s2.getD i 0) hag]

/-- Claim C10 witness: `[9, 1, 2, 7]` and `[0, 1, 2, 0]` agree on indices
`1` and `2`, and both regularisers coincide on the range `[1, 3)`. -/
theorem score_min_average_frame_witness :
    (∀ i, i < 3 → 1 ≤ i →
        ([9, 1, 2, 7] : statscores_t).getD i 0
          = ([0, 1, 2, 0] : statscores_t).getD i 0)
      ∧ (score_min [9, 1, 2, 7] 1 3 = score_min [0, 1, 2, 0] 1 3
        ∧ score_average [9, 1, 2, 7] 1 3 = score_average [0, 1, 2, 0] 1 3) :=
  ⟨by decide, score_min_average_frame [9, 1, 2, 7] [0, 1, 2, 0] 1 3 (by decide)⟩
